import Mathlib

/-!
Verification of the goodtill daily-export script (fetch_daily_sails_git.py).

The script fetches paginated sales data, flattens nested sale records into
one row per line item (`convert_sales_api_to_dataframe`), and writes one CSV
per calendar date, skipping the write when the file already exists.

We embed the data model and the three components shallowly:
  * JSON scalar values are `Value` (with ℚ standing for Python floats);
  * a pandas DataFrame is a list of rows, a row being an association list
    from column name to `Value` (Python dicts preserve insertion order);
  * fallible Python code (raising) is `Except String`.
-/

namespace GoodtillDailyExport

/-- A JSON-like scalar value as handled by the script.  `num` covers Python
ints and floats (idealised as ℚ; no claim concerns rounding), `dt` is a
pandas Timestamp carrying its source text, `null` covers both JSON null and
Python `None` / pandas `NaN` / `NaT`. -/
inductive Value where
  | null
  | str (s : String)
  | num (q : ℚ)
  | bool (b : Bool)
  | dt (s : String)
  deriving DecidableEq, Repr

/-- Python `d.get(k)`: an absent key yields `None`. -/
def pyGet (o : Option Value) : Value := o.getD .null

/-- Numeric value of a list of decimal digit characters. -/
def digitsVal (cs : List Char) : Nat :=
  cs.foldl (fun a c => a * 10 + (c.toNat - 48)) 0

/-- Strip leading and trailing spaces from a character list. -/
def trimChars (cs : List Char) : List Char :=
  ((cs.dropWhile (· = ' ')).reverse.dropWhile (· = ' ')).reverse

/-- Parse a character list as an optionally signed decimal literal
(`123`, `-7.25`, `.5`, `3.`).  Returns `none` on anything else. -/
def parseFloatChars (cs : List Char) : Option ℚ :=
  let (sgn, body) : ℚ × List Char :=
    match cs with
    | '-' :: t => (-1, t)
    | '+' :: t => (1, t)
    | t => (1, t)
  let intPart := body.takeWhile Char.isDigit
  let rest := body.dropWhile Char.isDigit
  match rest with
  | [] => if intPart.isEmpty then none else some (sgn * (digitsVal intPart : ℚ))
  | '.' :: frac =>
      if frac.all Char.isDigit ∧ ¬(intPart.isEmpty ∧ frac.isEmpty) then
        some (sgn * ((digitsVal intPart : ℚ) +
          (digitsVal frac : ℚ) / ((10 : ℚ) ^ frac.length)))
      else none
  | _ => none

/-- Models the numeric-string parsing shared by Python `float(...)` and
`pd.to_numeric`: plain decimal literals with optional sign and fraction.
(Exponent and `inf`/`nan` spellings are not used by this data source and
are modelled as parse failures.) -/
def parseFloat (s : String) : Option ℚ :=
  parseFloatChars (trimChars s.data)

/-- Python `float(v)`: numbers pass through, numeric strings parse,
booleans become 0/1, anything else raises. -/
def pyFloat : Value → Except String ℚ
  | .num q => .ok q
  | .bool b => .ok (if b then 1 else 0)
  | .str s =>
      match parseFloat s with
      | some q => .ok q
      | none => .error "ValueError: could not convert string to float"
  | .null => .error "TypeError: float argument must be a string or a number"
  | .dt _ => .error "TypeError: float argument must be a string or a number"

/-- `pd.to_numeric(v, errors=coerce)` on one cell: unparsable values become
null instead of raising. -/
def toNumericCoerce : Value → Value
  | .num q => .num q
  | .bool b => .num (if b then 1 else 0)
  | .null => .null
  | .dt _ => .null
  | .str s =>
      match parseFloat s with
      | some q => .num q
      | none => .null

/-- Shape check for the timestamp strings this API emits
(`YYYY-MM-DD` or `YYYY-MM-DD HH:MM:SS`). -/
def isDatetimeLit (s : String) : Bool :=
  match s.data with
  | [y1, y2, y3, y4, '-', m1, m2, '-', d1, d2] =>
      [y1, y2, y3, y4, m1, m2, d1, d2].all Char.isDigit
  | [y1, y2, y3, y4, '-', m1, m2, '-', d1, d2, ' ', h1, h2, ':', n1, n2, ':', s1, s2] =>
      [y1, y2, y3, y4, m1, m2, d1, d2, h1, h2, n1, n2, s1, s2].all Char.isDigit
  | _ => false

/-- `pd.to_datetime(v)` on one cell with the default `errors=raise`:
`None` becomes `NaT`, recognised date strings parse, anything
unrecognisable raises. -/
def pdToDatetime : Value → Except String Value
  | .null => .ok .null
  | .dt s => .ok (.dt s)
  | .num q => .ok (.dt (toString q))
  | .bool _ => .error "TypeError: cannot convert bool to datetime"
  | .str s =>
      if isDatetimeLit s then .ok (.dt s)
      else .error "ValueError: Unknown datetime string format"

/-- Effectful map over a list in `Except`, stopping at the first error
(the order in which a Python loop raises). -/
def exMapM {α β : Type} (f : α → Except String β) : List α → Except String (List β)
  | [] => .ok []
  | a :: l =>
      match f a with
      | .error e => .error e
      | .ok b =>
          match exMapM f l with
          | .error e => .error e
          | .ok bs => .ok (b :: bs)

/-! ## The nested sale data model (the dicts the API returns) -/

/-- The `outlet` sub-object of a sale; `none` on a field means the key is
absent from the dict. -/
structure Outlet where
  outlet_name : Option Value := none
  deriving DecidableEq, Repr

/-- The `register` sub-object of a sale. -/
structure Register where
  register_name : Option Value := none
  deriving DecidableEq, Repr

/-- One entry of `sales_details.sales_items`. -/
structure LineItem where
  id : Option Value := none
  product_id : Option Value := none
  product_name : Option Value := none
  quantity : Option Value := none
  price_inc_vat_per_item : Option Value := none
  vat_rate : Option Value := none
  vat_rate_id : Option Value := none
  line_total_after_line_discount : Option Value := none
  line_subtotal_after_line_discount : Option Value := none
  line_vat_after_line_discount : Option Value := none
  line_total_after_discount : Option Value := none
  line_subtotal_after_discount : Option Value := none
  line_vat_after_discount : Option Value := none
  has_discount : Option Value := none
  discount_amount : Option Value := none
  discount_is_percentage : Option Value := none
  discount_id : Option Value := none
  item_notes : Option Value := none
  sequence_no : Option Value := none
  created_at : Option Value := none
  deriving DecidableEq, Repr

/-- The `sales_details` sub-object of a sale.  `sales_items` models
`.get(sales_items, [])`: an absent key and an empty list coincide. -/
structure SalesDetails where
  sales_items : List LineItem := []
  quantity : Option Value := none
  total : Option Value := none
  total_ex_vat : Option Value := none
  total_vat : Option Value := none
  line_discount : Option Value := none
  deriving DecidableEq, Repr

/-- One value of the `sales_payments` map. -/
structure Payment where
  payment_total : Option Value := none
  deriving DecidableEq, Repr

/-- One raw Sale object.  `sales_payments` is an association list because
Python dicts preserve insertion order (`.keys()` order). -/
structure Sale where
  id : Option Value := none
  outlet_id : Option Value := none
  register_id : Option Value := none
  staff_id : Option Value := none
  customer_id : Option Value := none
  order_no : Option Value := none
  sale_type : Option Value := none
  order_status : Option Value := none
  receipt_no : Option Value := none
  sales_date_time : Option Value := none
  outlet : Option Outlet := none
  register : Option Register := none
  sales_details : Option SalesDetails := none
  sales_payments : Option (List (String × Payment)) := none
  deriving DecidableEq, Repr

/-- One flat output row: an ordered association list from column name to
value, exactly as the Python dict literal builds it. -/
abbrev Row := List (String × Value)

/-- `sale.get(sales_details, {}).get(sales_items, [])`. -/
def itemsOf (sale : Sale) : List LineItem :=
  match sale.sales_details with
  | none => []
  | some d => d.sales_items

/-- `sale.get(sales_payments, {})` as an ordered association list. -/
def paymentsOf (sale : Sale) : List (String × Payment) :=
  sale.sales_payments.getD []

/-- `list(sale.get(sales_payments, {}).keys())`. -/
def paymentMethodsOf (sale : Sale) : List String :=
  (paymentsOf sale).map Prod.fst

/-- `float(p.get(payment_total, 0))` for each payment `p`, in map order,
raising at the first non-coercible amount. -/
def paymentAmounts (sale : Sale) : Except String (List ℚ) :=
  exMapM (fun p => pyFloat (p.2.payment_total.getD (.num 0))) (paymentsOf sale)

/-- `sum(float(p.get(payment_total, 0)) for p in sale.get(sales_payments, {}).values())`. -/
def paymentTotalOf (sale : Sale) : Except String ℚ :=
  (paymentAmounts sale).map List.sum

/-- `sale.get(outlet, {}).get(outlet_name, )` with empty-string default. -/
def outletNameOf (sale : Sale) : Value :=
  match sale.outlet with
  | none => .str ""
  | some o => o.outlet_name.getD (.str "")

/-- `sale.get(register, {}).get(register_name, )` with empty-string default. -/
def registerNameOf (sale : Sale) : Value :=
  match sale.register with
  | none => .str ""
  | some r => r.register_name.getD (.str "")

/-- `sale.get(sales_details, {}).get(k)` for a sale-level total field. -/
def detailField (sale : Sale) (f : SalesDetails → Option Value) : Value :=
  match sale.sales_details with
  | none => .null
  | some d => pyGet (f d)

/-- The row dict literal of the source (lines 109-166), in source order. -/
def mkRow (sale : Sale) (item : LineItem)
    (payment_methods : List String) (payment_total : ℚ) : Row :=
  [ ("sale_id", pyGet sale.id),
    ("outlet_id", pyGet sale.outlet_id),
    ("outlet_name", outletNameOf sale),
    ("register_id", pyGet sale.register_id),
    ("register_name", registerNameOf sale),
    ("staff_id", pyGet sale.staff_id),
    ("customer_id", pyGet sale.customer_id),
    ("order_no", pyGet sale.order_no),
    ("sale_type", pyGet sale.sale_type),
    ("order_status", pyGet sale.order_status),
    ("receipt_no", pyGet sale.receipt_no),
    ("sales_date_time", pyGet sale.sales_date_time),
    ("item_id", pyGet item.id),
    ("product_id", pyGet item.product_id),
    ("product_name", pyGet item.product_name),
    ("quantity", pyGet item.quantity),
    ("price_inc_vat_per_item", pyGet item.price_inc_vat_per_item),
    ("vat_rate", pyGet item.vat_rate),
    ("vat_rate_id", pyGet item.vat_rate_id),
    ("line_total_after_line_discount", pyGet item.line_total_after_line_discount),
    ("line_subtotal_after_line_discount", pyGet item.line_subtotal_after_line_discount),
    ("line_vat_after_line_discount", pyGet item.line_vat_after_line_discount),
    ("line_total_after_discount", pyGet item.line_total_after_discount),
    ("line_subtotal_after_discount", pyGet item.line_subtotal_after_discount),
    ("line_vat_after_discount", pyGet item.line_vat_after_discount),
    ("has_discount", pyGet item.has_discount),
    ("discount_amount", pyGet item.discount_amount),
    ("discount_is_percentage", pyGet item.discount_is_percentage),
    ("discount_id", pyGet item.discount_id),
    ("sale_quantity_total", detailField sale SalesDetails.quantity),
    ("sale_total", detailField sale SalesDetails.total),
    ("sale_subtotal", detailField sale SalesDetails.total_ex_vat),
    ("sale_vat_total", detailField sale SalesDetails.total_vat),
    ("sale_line_discount", detailField sale SalesDetails.line_discount),
    ("payment_methods", .str (String.intercalate ";" payment_methods)),
    ("payment_total", .num payment_total),
    ("item_notes", pyGet item.item_notes),
    ("sequence_no", pyGet item.sequence_no),
    ("created_at", pyGet item.created_at) ]

/-- The fixed column set of every output row, in source order. -/
def flatRecordFields : List String :=
  [ "sale_id", "outlet_id", "outlet_name", "register_id", "register_name",
    "staff_id", "customer_id", "order_no", "sale_type", "order_status",
    "receipt_no", "sales_date_time", "item_id", "product_id", "product_name",
    "quantity", "price_inc_vat_per_item", "vat_rate", "vat_rate_id",
    "line_total_after_line_discount", "line_subtotal_after_line_discount",
    "line_vat_after_line_discount", "line_total_after_discount",
    "line_subtotal_after_discount", "line_vat_after_discount",
    "has_discount", "discount_amount", "discount_is_percentage", "discount_id",
    "sale_quantity_total", "sale_total", "sale_subtotal", "sale_vat_total",
    "sale_line_discount", "payment_methods", "payment_total",
    "item_notes", "sequence_no", "created_at" ]

/-- The inner `for item in sales_items` loop of one sale: the payment
summary is recomputed (and can raise) once per item, inside the loop. -/
def saleRows (sale : Sale) : Except String (List Row) :=
  exMapM
    (fun item =>
      (paymentTotalOf sale).map
        (fun pt => mkRow sale item (paymentMethodsOf sale) pt))
    (itemsOf sale)

/-- The outer `for sale in sales_list` loop accumulating `rows`. -/
def buildRows (sales : List Sale) : Except String (List Row) :=
  (exMapM saleRows sales).map List.flatten

/-- The two columns run through `pd.to_datetime` (source lines 174-175). -/
def dtColumns : List String := ["sales_date_time", "created_at"]

/-- The `numeric_columns` list of the source (lines 178-184). -/
def numericColumns : List String :=
  [ "quantity", "price_inc_vat_per_item", "vat_rate",
    "line_total_after_line_discount", "line_subtotal_after_line_discount",
    "line_vat_after_line_discount", "line_total_after_discount",
    "line_subtotal_after_discount", "line_vat_after_discount",
    "discount_amount", "payment_total" ]

/-- One cell of the datetime pass: a cell of a datetime column goes
through `pd.to_datetime` (which can raise), all other cells are kept. -/
def dtStep (kv : String × Value) : Except String (String × Value) :=
  if kv.1 ∈ dtColumns then (pdToDatetime kv.2).map (fun v => (kv.1, v))
  else .ok kv

/-- Datetime conversion of one row (the row-wise view of converting the
two datetime columns; `pd.to_datetime` raises on a malformed cell). -/
def convertRowDT (r : Row) : Except String Row :=
  exMapM dtStep r

/-- One cell of the numeric pass: a cell of a `numeric_columns` column
goes through `pd.to_numeric(errors=coerce)`, all other cells are kept. -/
def coerceCell (k : String) (v : Value) : Value :=
  if k ∈ numericColumns then toNumericCoerce v else v

/-- Numeric coercion of one row. -/
def coerceNumerics (r : Row) : Row :=
  r.map (fun kv => (kv.1, coerceCell kv.1 kv.2))

/-- The whole post-assembly normalisation: datetime conversion (which can
raise), then numeric coercion (which cannot). -/
def postRows (rows : List Row) : Except String (List Row) :=
  (exMapM convertRowDT rows).map (List.map coerceNumerics)

/-- The argument of the flattener: the raw `json_data`, which the source
accepts as a bare list, a dict with a `data` key, or rejects. -/
inductive JsonInput where
  | list (sales : List Sale)
  | dictWithData (sales : List Sale)
  | malformed

/-- `convert_sales_api_to_dataframe` (source lines 78-189).  Raising is
`Except.error`; the success value is the final list of coerced rows.
An all-empty row set makes `df[sales_date_time]` a missing column of the
empty DataFrame, which raises KeyError. -/
def convert_sales_api_to_dataframe (json_data : JsonInput) : Except String (List Row) :=
  match json_data with
  | .malformed => .error "ValueError: Expected dict with data key or list of sales"
  | .list sales_list | .dictWithData sales_list =>
      if sales_list.isEmpty then .error "ValueError: No sales data found"
      else
        match buildRows sales_list with
        | .error e => .error e
        | .ok rows =>
            if rows.isEmpty then .error "KeyError: sales_date_time"
            else postRows rows

/-- All rows one sale contributes to the final output (its raw rows run
through the post-assembly normalisation). -/
def saleRecords (sale : Sale) : Except String (List Row) :=
  (saleRows sale).bind postRows

/-- The block of final rows of one sale, empty when the sale raises. -/
def blockOf (sale : Sale) : List Row :=
  (saleRecords sale).toOption.getD []

/-! ## The paginated fetcher (source lines 31-65)

The upstream dataset for the query window is a finite list of records; the
API serves the page of `limit` records starting at `offset`.  The loop of
`fetch_all_sales_for_token` is modelled as a recursion whose state is the
current offset, the accumulated records and the number of requests made. -/

/-- How the loop stopped: the empty-page check (line 55-56) or the
short-page check (line 60-61). -/
inductive StopReason where
  | emptyPage
  | shortPage
  deriving DecidableEq, Repr

/-- The page the API returns for a given offset: `limit` records of the
dataset starting at `offset`. -/
def pageAt (records : List Sale) (limit offset : Nat) : List Sale :=
  (records.drop offset).take limit

/-- The `while True` loop of `fetch_all_sales_for_token`: request the page
at `offset`, stop on an empty or short page, otherwise advance the offset
by `limit`.  Returns the accumulated sales, the total number of requests
issued and the stop reason. -/
def fetchGo (records : List Sale) (limit : Nat) (offset : Nat)
    (acc : List Sale) (reqs : Nat) : List Sale × Nat × StopReason :=
  if h1 : (pageAt records limit offset).isEmpty then (acc, reqs + 1, .emptyPage)
  else if h2 : (pageAt records limit offset).length < limit then
    (acc ++ pageAt records limit offset, reqs + 1, .shortPage)
  else
    fetchGo records limit (offset + limit)
      (acc ++ pageAt records limit offset) (reqs + 1)
termination_by records.length - offset
decreasing_by
  have h3 : 0 < (pageAt records limit offset).length := by
    cases hp : pageAt records limit offset with
    | nil => exact absurd (by simp [hp]) h1
    | cons a l => simp
  have h4 : (pageAt records limit offset).length ≤ records.length - offset := by
    simp [pageAt]
  have h6 : (pageAt records limit offset).length ≤ limit := by
    simp [pageAt]
  omega

/-- `fetch_all_sales_for_token` (source lines 31-65): run the loop from
offset 0 with an empty accumulator. -/
def fetch_all_sales_for_token (records : List Sale) (limit : Nat) :
    List Sale × Nat × StopReason :=
  fetchGo records limit 0 [] 0

/-! ## The orchestrator tail (source lines 210-228) -/

/-- `df[Area] = label`: pandas overwrites an existing `Area` column and
otherwise appends it as the last column. -/
def addArea (label : String) (r : Row) : Row :=
  if (List.lookup "Area" r).isSome then
    r.map (fun kv => if kv.1 = "Area" then ("Area", Value.str label) else kv)
  else r ++ [("Area", Value.str label)]

/-- `pd.concat([food_df, bar_df])` after tagging each side with its Area
label: all Food rows, in order, followed by all Bar rows, in order. -/
def combineTagged (food bar : List Row) : List Row :=
  food.map (addArea "Food") ++ bar.map (addArea "Bar")

/-- `f"{yday:%Y-%m-%d}_sales.csv"`: the output name is keyed by the date. -/
def filenameFor (dateStr : String) : String := dateStr ++ "_sales.csv"

/-- The archive directory as a map from filename to file contents. -/
abbrev FileStore := List (String × String)

/-- The write-once tail of `main` (source lines 221-228): if the file for
the date exists, leave the store untouched and print the skip notice;
otherwise write the CSV and print the saved notice.  Returns the new store
and the printed line. -/
def writeDailyFile (fs : FileStore) (filename content : String) :
    FileStore × String :=
  match List.lookup filename fs with
  | some _ => (fs, "File already exists, skipping: " ++ filename)
  | none => ((filename, content) :: fs, "Saved daily sales to " ++ filename)

/-! ## Concrete inputs used by the witness examples -/

/-- A concrete sale for the witnesses: two line items and one cash
payment of 7.00. -/
def witSale1 : Sale :=
  { id := some (.num 1),
    sales_details := some
      { sales_items := [ { id := some (.num 10) }, { id := some (.num 11) } ] },
    sales_payments := some [("cash", { payment_total := some (.str "7.00") })] }

/-- The flattener's output on `[witSale1]`. -/
def witOut : List Row :=
  (convert_sales_api_to_dataframe (.list [witSale1])).toOption.getD []

/-- The first output row on `[witSale1]`. -/
def witRow1 : Row := witOut.headD []

/-- The raw (pre-normalisation) rows of `witSale1`. -/
def witRawRows : List Row := (saleRows witSale1).toOption.getD []

/-- A sale with one line item and a non-numeric payment amount. -/
def badPaySale : Sale :=
  { sales_details := some { sales_items := [{}] },
    sales_payments := some [("cash", { payment_total := some (.str "N/A") })] }

/-- A sale with no line items but a non-numeric payment amount. -/
def emptyItemsBadPaySale : Sale :=
  { sales_payments := some [("card", { payment_total := some (.str "N/A") })] }

/-- A sale whose line item has a non-numeric quantity string. -/
def witNASale : Sale :=
  { sales_details := some { sales_items := [ { quantity := some (.str "N/A") } ] },
    sales_payments := some [("cash", { payment_total := some (.num 5) })] }

/-- The flattener's output on `[witNASale]`. -/
def witNAOut : List Row :=
  (convert_sales_api_to_dataframe (.list [witNASale])).toOption.getD []

/-- The first output row on `[witNASale]`. -/
def witNARow : Row := witNAOut.headD []

/-- The coerced payment amounts of `witSale1`. -/
def witQs : List ℚ := (paymentAmounts witSale1).toOption.getD []

/-! ## Helper lemmas about the effectful map -/

theorem exMapM_nil {α β : Type} (f : α → Except String β) :
    exMapM f [] = .ok [] := rfl

theorem exMapM_cons {α β : Type} (f : α → Except String β) (a : α) (l : List α) :
    exMapM f (a :: l) =
      match f a with
      | .error e => .error e
      | .ok b =>
          match exMapM f l with
          | .error e => .error e
          | .ok bs => .ok (b :: bs) := rfl

theorem exMapM_ok_length {α β : Type} {f : α → Except String β} :
    ∀ {l : List α} {out : List β}, exMapM f l = .ok out → out.length = l.length := by
  intro l
  induction l with
  | nil =>
      intro out h
      rw [exMapM_nil] at h
      simp only [Except.ok.injEq] at h
      simp [← h]
  | cons a t ih =>
      intro out h
      rw [exMapM_cons] at h
      cases hfa : f a with
      | error e => rw [hfa] at h; exact absurd h (by simp)
      | ok b =>
          rw [hfa] at h
          cases hrec : exMapM f t with
          | error e => rw [hrec] at h; exact absurd h (by simp)
          | ok bs =>
              rw [hrec] at h
              simp only [Except.ok.injEq] at h
              subst h
              simp [ih hrec]

theorem exMapM_ok_mem {α β : Type} {f : α → Except String β} :
    ∀ {l : List α} {out : List β}, exMapM f l = .ok out →
      ∀ b2 ∈ out, ∃ a2 ∈ l, f a2 = .ok b2 := by
  intro l
  induction l with
  | nil =>
      intro out h
      rw [exMapM_nil] at h
      simp only [Except.ok.injEq] at h
      simp [← h]
  | cons a t ih =>
      intro out h b2 hb
      rw [exMapM_cons] at h
      cases hfa : f a with
      | error e => rw [hfa] at h; exact absurd h (by simp)
      | ok b =>
          rw [hfa] at h
          cases hrec : exMapM f t with
          | error e => rw [hrec] at h; exact absurd h (by simp)
          | ok bs =>
              rw [hrec] at h
              simp only [Except.ok.injEq] at h
              subst h
              rcases List.mem_cons.mp hb with hb | hb
              · exact ⟨a, List.mem_cons_self a t, by rw [hfa, hb]⟩
              · rcases ih hrec b2 hb with ⟨a2, ha2, hfa2⟩
                exact ⟨a2, List.mem_cons_of_mem a ha2, hfa2⟩

theorem exMapM_append {α β : Type} {f : α → Except String β} :
    ∀ {l1 l2 : List α} {out : List β}, exMapM f (l1 ++ l2) = .ok out →
      ∃ o1 o2, exMapM f l1 = .ok o1 ∧ exMapM f l2 = .ok o2 ∧ out = o1 ++ o2 := by
  intro l1
  induction l1 with
  | nil =>
      intro l2 out h
      exact ⟨[], out, rfl, by simpa using h, rfl⟩
  | cons a t ih =>
      intro l2 out h
      rw [List.cons_append, exMapM_cons] at h
      cases hfa : f a with
      | error e => rw [hfa] at h; exact absurd h (by simp)
      | ok b =>
          rw [hfa] at h
          cases hrec : exMapM f (t ++ l2) with
          | error e => rw [hrec] at h; exact absurd h (by simp)
          | ok bs =>
              rw [hrec] at h
              simp only [Except.ok.injEq] at h
              subst h
              rcases ih hrec with ⟨o1, o2, ho1, ho2, hsplit⟩
              refine ⟨b :: o1, o2, ?_, ho2, by simp [hsplit]⟩
              rw [exMapM_cons, hfa, ho1]

theorem exMapM_map_eq {α β γ : Type} {f : α → Except String β}
    (g : β → γ) (k : α → γ) (hgk : ∀ a2 b2, f a2 = .ok b2 → g b2 = k a2) :
    ∀ {l : List α} {out : List β}, exMapM f l = .ok out →
      out.map g = l.map k := by
  intro l
  induction l with
  | nil =>
      intro out h
      rw [exMapM_nil] at h
      simp only [Except.ok.injEq] at h
      simp [← h]
  | cons a t ih =>
      intro out h
      rw [exMapM_cons] at h
      cases hfa : f a with
      | error e => rw [hfa] at h; exact absurd h (by simp)
      | ok b =>
          rw [hfa] at h
          cases hrec : exMapM f t with
          | error e => rw [hrec] at h; exact absurd h (by simp)
          | ok bs =>
              rw [hrec] at h
              simp only [Except.ok.injEq] at h
              subst h
              simp [hgk a b hfa, ih hrec]

/-- Steps that keep every key and are the identity on rows whose key is
`k` leave `List.lookup k` unchanged. -/
theorem exMapM_lookup_id {f : String × Value → Except String (String × Value)}
    (k : String)
    (hkey : ∀ kv kv2, f kv = .ok kv2 → kv2.1 = kv.1)
    (hfix : ∀ kv kv2, f kv = .ok kv2 → kv.1 = k → kv2 = kv) :
    ∀ {r r2 : Row}, exMapM f r = .ok r2 →
      List.lookup k r2 = List.lookup k r := by
  intro r
  induction r with
  | nil =>
      intro r2 h
      rw [exMapM_nil] at h
      simp only [Except.ok.injEq] at h
      simp [← h]
  | cons kv t ih =>
      intro r2 h
      rw [exMapM_cons] at h
      cases hfa : f kv with
      | error e => rw [hfa] at h; exact absurd h (by simp)
      | ok kv2 =>
          rw [hfa] at h
          cases hrec : exMapM f t with
          | error e => rw [hrec] at h; exact absurd h (by simp)
          | ok t2 =>
              rw [hrec] at h
              simp only [Except.ok.injEq] at h
              subst h
              obtain ⟨k1, v1⟩ := kv
              by_cases hk : k1 = k
              · have hid : kv2 = (k1, v1) := hfix (k1, v1) kv2 hfa hk
                subst hid
                subst hk
                simp [List.lookup]
              · have hkk : kv2.1 = k1 := hkey (k1, v1) kv2 hfa
                obtain ⟨k2, v2⟩ := kv2
                simp only at hkk
                have hbeq : (k == k1) = false :=
                  beq_false_of_ne (fun he => hk he.symm)
                simp [List.lookup, hkk, hbeq, ih hrec]

/-! ## Helper lemmas about the normalisation passes -/

theorem dtStep_key {kv kv2 : String × Value} (h : dtStep kv = .ok kv2) :
    kv2.1 = kv.1 := by
  unfold dtStep at h
  by_cases hdt : kv.1 ∈ dtColumns
  · rw [if_pos hdt] at h
    cases hpd : pdToDatetime kv.2 with
    | error e => rw [hpd] at h; exact absurd h (by simp [Except.map])
    | ok v =>
        rw [hpd] at h
        simp only [Except.map, Except.ok.injEq] at h
        simp [← h]
  · rw [if_neg hdt] at h
    simp only [Except.ok.injEq] at h
    simp [← h]

theorem dtStep_offdt {kv kv2 : String × Value} (hdt : kv.1 ∉ dtColumns)
    (h : dtStep kv = .ok kv2) : kv2 = kv := by
  unfold dtStep at h
  rw [if_neg hdt] at h
  simp only [Except.ok.injEq] at h
  exact h.symm

theorem convertRowDT_ok_keys {r r2 : Row} (h : convertRowDT r = .ok r2) :
    r2.map Prod.fst = r.map Prod.fst := by
  exact exMapM_map_eq Prod.fst Prod.fst (fun a2 b2 hab => dtStep_key hab) h

theorem convertRowDT_ok_lookup (k : String) (hk : k ∉ dtColumns)
    {r r2 : Row} (h : convertRowDT r = .ok r2) :
    List.lookup k r2 = List.lookup k r := by
  refine exMapM_lookup_id k (fun kv kv2 hab => dtStep_key hab) ?_ h
  intro kv kv2 hab hkv
  exact dtStep_offdt (fun hmem => hk (hkv ▸ hmem)) hab

theorem lookup_map_pair (k : String) (g : String → Value → Value) :
    ∀ r : Row, List.lookup k (r.map (fun kv => (kv.1, g kv.1 kv.2))) =
      (List.lookup k r).map (g k) := by
  intro r
  induction r with
  | nil => simp
  | cons kv t ih =>
      obtain ⟨k1, v1⟩ := kv
      by_cases hk : k = k1
      · subst hk
        simp [List.lookup]
      · have hbeq : (k == k1) = false := beq_false_of_ne hk
        simp [List.lookup, hbeq, ih]

theorem lookup_coerceNumerics (k : String) (r : Row) :
    List.lookup k (coerceNumerics r) = (List.lookup k r).map (coerceCell k) := by
  unfold coerceNumerics
  exact lookup_map_pair k coerceCell r

theorem keys_coerceNumerics (r : Row) :
    (coerceNumerics r).map Prod.fst = r.map Prod.fst := by
  unfold coerceNumerics
  simp

/-! ## Decomposition of the flattener pipeline -/

theorem postRows_nil : postRows [] = .ok [] := rfl

theorem postRows_ok_length {rows out : List Row} (h : postRows rows = .ok out) :
    out.length = rows.length := by
  unfold postRows at h
  cases hdt : exMapM convertRowDT rows with
  | error e => rw [hdt] at h; exact absurd h (by simp [Except.map])
  | ok rowsd =>
      rw [hdt] at h
      simp only [Except.map, Except.ok.injEq] at h
      subst h
      simp [exMapM_ok_length hdt]

theorem postRows_ok_mem {rows out : List Row} (h : postRows rows = .ok out) :
    ∀ r2 ∈ out, ∃ r ∈ rows, ∃ rd, convertRowDT r = .ok rd ∧ r2 = coerceNumerics rd := by
  unfold postRows at h
  cases hdt : exMapM convertRowDT rows with
  | error e => rw [hdt] at h; exact absurd h (by simp [Except.map])
  | ok rowsd =>
      rw [hdt] at h
      simp only [Except.map, Except.ok.injEq] at h
      subst h
      intro r2 hr2
      rcases List.mem_map.mp hr2 with ⟨rd, hrd, hco⟩
      rcases exMapM_ok_mem hdt rd hrd with ⟨r, hr, hcr⟩
      exact ⟨r, hr, rd, hcr, hco.symm⟩

theorem postRows_append {a b : List Row} {out : List Row}
    (h : postRows (a ++ b) = .ok out) :
    ∃ oa ob, postRows a = .ok oa ∧ postRows b = .ok ob ∧ out = oa ++ ob := by
  unfold postRows at h ⊢
  cases hdt : exMapM convertRowDT (a ++ b) with
  | error e => rw [hdt] at h; exact absurd h (by simp [Except.map])
  | ok rowsd =>
      rw [hdt] at h
      simp only [Except.map, Except.ok.injEq] at h
      subst h
      rcases exMapM_append hdt with ⟨d1, d2, hd1, hd2, hsplit⟩
      subst hsplit
      exact ⟨d1.map coerceNumerics, d2.map coerceNumerics,
        by rw [hd1]; rfl, by rw [hd2]; rfl, by simp⟩

theorem saleRows_ok_length {s : Sale} {rows : List Row}
    (h : saleRows s = .ok rows) : rows.length = (itemsOf s).length :=
  exMapM_ok_length h

theorem saleRows_ok_mem {s : Sale} {rows : List Row}
    (h : saleRows s = .ok rows) :
    ∀ r ∈ rows, ∃ item ∈ itemsOf s, ∃ pt, paymentTotalOf s = .ok pt ∧
      r = mkRow s item (paymentMethodsOf s) pt := by
  intro r hr
  rcases exMapM_ok_mem h r hr with ⟨item, hitem, hf⟩
  cases hpt : paymentTotalOf s with
  | error e => rw [hpt] at hf; exact absurd hf (by simp [Except.map])
  | ok pt =>
      rw [hpt] at hf
      simp only [Except.map, Except.ok.injEq] at hf
      exact ⟨item, hitem, pt, rfl, hf.symm⟩

theorem blockOf_of_ok {s : Sale} {rs : List Row}
    (h : saleRecords s = .ok rs) : blockOf s = rs := by
  simp [blockOf, h, Except.toOption]

theorem saleRecords_ok_parts {s : Sale} {rs : List Row}
    (h : saleRecords s = .ok rs) :
    ∃ rows, saleRows s = .ok rows ∧ postRows rows = .ok rs := by
  unfold saleRecords at h
  cases hsr : saleRows s with
  | error e => rw [hsr] at h; exact absurd h (by simp [Except.bind])
  | ok rows =>
      rw [hsr] at h
      simp only [Except.bind] at h
      exact ⟨rows, rfl, h⟩

theorem saleRecords_length {s : Sale} {rs : List Row}
    (h : saleRecords s = .ok rs) : rs.length = (itemsOf s).length := by
  rcases saleRecords_ok_parts h with ⟨rows, hsr, hpr⟩
  rw [postRows_ok_length hpr, saleRows_ok_length hsr]

/-- The joint induction behind the block decomposition: if the per-sale
raw blocks all built and their concatenation normalised, then every sale
normalises on its own and the output is the concatenation of the per-sale
final blocks. -/
theorem blocks_post :
    ∀ {L : List Sale} {blocks : List (List Row)} {out : List Row},
      exMapM saleRows L = .ok blocks → postRows blocks.flatten = .ok out →
      (∀ s ∈ L, ∃ rs, saleRecords s = .ok rs) ∧ out = (L.map blockOf).flatten := by
  intro L
  induction L with
  | nil =>
      intro blocks out h1 h2
      rw [exMapM_nil] at h1
      simp only [Except.ok.injEq] at h1
      subst h1
      simp only [List.flatten_nil] at h2
      rw [postRows_nil] at h2
      simp only [Except.ok.injEq] at h2
      simp [← h2]
  | cons s t ih =>
      intro blocks out h1 h2
      rw [exMapM_cons] at h1
      cases hsr : saleRows s with
      | error e => rw [hsr] at h1; exact absurd h1 (by simp)
      | ok B =>
          rw [hsr] at h1
          cases hrec : exMapM saleRows t with
          | error e => rw [hrec] at h1; exact absurd h1 (by simp)
          | ok Bs =>
              rw [hrec] at h1
              simp only [Except.ok.injEq] at h1
              subst h1
              rw [List.flatten_cons] at h2
              rcases postRows_append h2 with ⟨oB, oRest, hoB, hoRest, hsplit⟩
              have hrecs : saleRecords s = .ok oB := by
                unfold saleRecords
                rw [hsr]
                simpa [Except.bind] using hoB
              rcases ih hrec hoRest with ⟨hall, hout⟩
              refine ⟨?_, ?_⟩
              · intro s2 hs2
                rcases List.mem_cons.mp hs2 with hs2 | hs2
                · exact ⟨oB, hs2 ▸ hrecs⟩
                · exact hall s2 hs2
              · rw [hsplit, hout, List.map_cons, List.flatten_cons,
                  blockOf_of_ok hrecs]

theorem convert_list_eq (L : List Sale) :
    convert_sales_api_to_dataframe (.list L) =
      if L.isEmpty then .error "ValueError: No sales data found"
      else
        match buildRows L with
        | .error e => .error e
        | .ok rows =>
            if rows.isEmpty then .error "KeyError: sales_date_time"
            else postRows rows := rfl

theorem convert_dict_eq (L : List Sale) :
    convert_sales_api_to_dataframe (.dictWithData L) =
      convert_sales_api_to_dataframe (.list L) := rfl

/-- Unfolding of a successful run of the flattener on a bare list: the
list was non-empty, every sale flattened and normalised on its own, and
the output is the concatenation of the per-sale blocks in input order. -/
theorem convert_ok_decomp {L : List Sale} {out : List Row}
    (h : convert_sales_api_to_dataframe (.list L) = .ok out) :
    L ≠ [] ∧ (∀ s ∈ L, ∃ rs, saleRecords s = .ok rs) ∧
      out = (L.map blockOf).flatten := by
  rw [convert_list_eq] at h
  by_cases hL : L.isEmpty
  · rw [if_pos hL] at h
    exact absurd h (by simp)
  · rw [if_neg hL] at h
    cases hbr : buildRows L with
    | error e => rw [hbr] at h; exact absurd h (by simp)
    | ok rows =>
        rw [hbr] at h
        dsimp only at h
        by_cases hrows : rows.isEmpty
        · rw [if_pos hrows] at h
          exact absurd h (by simp)
        · rw [if_neg hrows] at h
          unfold buildRows at hbr
          cases hbl : exMapM saleRows L with
          | error e => rw [hbl] at hbr; exact absurd hbr (by simp [Except.map])
          | ok blocks =>
              rw [hbl] at hbr
              simp only [Except.map, Except.ok.injEq] at hbr
              subst hbr
              rcases blocks_post hbl h with ⟨hall, hout⟩
              exact ⟨fun he => hL (by simp [he]), hall, hout⟩

/-! ## Lookups on a freshly assembled row -/

theorem lookup_mkRow_sale_id (s : Sale) (i : LineItem) (pm : List String) (pt : ℚ) :
    List.lookup "sale_id" (mkRow s i pm pt) = some (pyGet s.id) := rfl

theorem lookup_mkRow_item_id (s : Sale) (i : LineItem) (pm : List String) (pt : ℚ) :
    List.lookup "item_id" (mkRow s i pm pt) = some (pyGet i.id) := rfl

theorem lookup_mkRow_payment_total (s : Sale) (i : LineItem) (pm : List String) (pt : ℚ) :
    List.lookup "payment_total" (mkRow s i pm pt) = some (.num pt) := rfl

theorem lookup_mkRow_payment_methods (s : Sale) (i : LineItem) (pm : List String) (pt : ℚ) :
    List.lookup "payment_methods" (mkRow s i pm pt) =
      some (.str (String.intercalate ";" pm)) := rfl

theorem keys_mkRow (s : Sale) (i : LineItem) (pm : List String) (pt : ℚ) :
    (mkRow s i pm pt).map Prod.fst = flatRecordFields := rfl

/-! ## From a final record back to its sale, item and payment summary -/

theorem saleRecords_row_src {s : Sale} {rs : List Row}
    (h : saleRecords s = .ok rs) :
    ∀ r ∈ rs, ∃ item ∈ itemsOf s, ∃ pt, paymentTotalOf s = .ok pt ∧
      ∃ rd, convertRowDT (mkRow s item (paymentMethodsOf s) pt) = .ok rd ∧
        r = coerceNumerics rd := by
  intro r hr
  rcases saleRecords_ok_parts h with ⟨rows, hsr, hpr⟩
  rcases postRows_ok_mem hpr r hr with ⟨r0, hr0, rd, hcr, hco⟩
  rcases saleRows_ok_mem hsr r0 hr0 with ⟨item, hitem, pt, hpt, hmk⟩
  exact ⟨item, hitem, pt, hpt, rd, hmk ▸ hcr, hco⟩

theorem saleRecords_lookup {s : Sale} {rs : List Row}
    (h : saleRecords s = .ok rs) (k : String) (hdt : k ∉ dtColumns) :
    ∀ r ∈ rs, ∃ item ∈ itemsOf s, ∃ pt, paymentTotalOf s = .ok pt ∧
      List.lookup k r =
        (List.lookup k (mkRow s item (paymentMethodsOf s) pt)).map (coerceCell k) := by
  intro r hr
  rcases saleRecords_row_src h r hr with ⟨item, hitem, pt, hpt, rd, hcr, hco⟩
  refine ⟨item, hitem, pt, hpt, ?_⟩
  rw [hco, lookup_coerceNumerics, convertRowDT_ok_lookup k hdt hcr]

theorem saleRecords_lookup_sale_id {s : Sale} {rs : List Row}
    (h : saleRecords s = .ok rs) :
    ∀ r ∈ rs, List.lookup "sale_id" r = some (pyGet s.id) := by
  intro r hr
  rcases saleRecords_lookup h "sale_id" (by decide) r hr with ⟨item, hitem, pt, hpt, hlk⟩
  rw [hlk, lookup_mkRow_sale_id]
  have hnum : "sale_id" ∉ numericColumns := by decide
  simp [coerceCell, hnum]

theorem convert_ok_mem {L : List Sale} {out : List Row}
    (h : convert_sales_api_to_dataframe (.list L) = .ok out) :
    ∀ r ∈ out, ∃ s ∈ L, ∃ rs, saleRecords s = .ok rs ∧ r ∈ rs := by
  intro r hr
  rcases convert_ok_decomp h with ⟨hne, hall, hout⟩
  rw [hout] at hr
  rcases List.mem_flatten.mp hr with ⟨b, hb, hrb⟩
  rcases List.mem_map.mp hb with ⟨s, hs, hbs⟩
  rcases hall s hs with ⟨rs, hrs⟩
  refine ⟨s, hs, rs, hrs, ?_⟩
  rw [← blockOf_of_ok hrs, hbs]
  exact hrb

theorem toNumericCoerce_null_or_num (v : Value) :
    toNumericCoerce v = .null ∨ ∃ q, toNumericCoerce v = .num q := by
  cases v with
  | null => exact Or.inl rfl
  | dt s => exact Or.inl rfl
  | num q => exact Or.inr ⟨q, rfl⟩
  | bool b => exact Or.inr ⟨if b then 1 else 0, rfl⟩
  | str s =>
      cases hp : parseFloat s with
      | none => exact Or.inl (by simp [toNumericCoerce, hp])
      | some q => exact Or.inr ⟨q, by simp [toNumericCoerce, hp]⟩

/-! ## The claims -/

/-- C1: For every input list of Sales accepted by the flattener, the output
is the concatenation of per-sale blocks in input order; a Sale with N
entries in its nested line-item list yields exactly N FlatRecords, each
carrying that sale's sale_id, and a Sale with zero line items contributes
zero FlatRecords. -/
theorem C1_rows_per_sale {L : List Sale} {out : List Row}
    (h : convert_sales_api_to_dataframe (.list L) = .ok out) :
    out = (L.map blockOf).flatten ∧
    ∀ s ∈ L, (blockOf s).length = (itemsOf s).length ∧
      (∀ r ∈ blockOf s, List.lookup "sale_id" r = some (pyGet s.id)) ∧
      (itemsOf s = [] → blockOf s = []) := by
  rcases convert_ok_decomp h with ⟨hne, hall, hout⟩
  refine ⟨hout, fun s hs => ?_⟩
  rcases hall s hs with ⟨rs, hrs⟩
  rw [blockOf_of_ok hrs]
  refine ⟨saleRecords_length hrs, saleRecords_lookup_sale_id hrs, fun hit => ?_⟩
  have hlen := saleRecords_length hrs
  rw [hit] at hlen
  exact List.length_eq_zero.mp (by simpa using hlen)

/-- Witness for C1 at a concrete two-item sale. -/
theorem C1_rows_per_sale_witness :
    (blockOf witSale1).length = (itemsOf witSale1).length :=
  ((C1_rows_per_sale
      (show convert_sales_api_to_dataframe (.list [witSale1]) = .ok witOut from rfl)).2
    witSale1 (List.mem_singleton.mpr rfl)).1

/-- C2 counterexample: a non-numeric string as a payment amount makes the
flattener raise (the bare `float(...)` on source line 105), so not every
numeric field of the fixed list coerces bad strings to null. -/
theorem C2_counterexample_payment_raises :
    convert_sales_api_to_dataframe (.list [badPaySale]) =
      .error "ValueError: could not convert string to float" := rfl

/-- C2 (amended): for the item-level numeric columns the post-assembly
`pd.to_numeric(errors=coerce)` turns every unparsable value into null, so
every numeric column of an accepted run holds only null or a number; but
the computed payment total is exempt, since a non-numeric payment amount
raises inside row assembly (see the counterexample). -/
theorem C2_numeric_fields_coerce {L : List Sale} {out : List Row}
    (h : convert_sales_api_to_dataframe (.list L) = .ok out) :
    (∀ r ∈ out, ∀ k ∈ numericColumns, ∀ v, List.lookup k r = some v →
      v = .null ∨ ∃ q, v = .num q) ∧
    (∀ s2 : String, parseFloat s2 = none → toNumericCoerce (.str s2) = .null) := by
  constructor
  · intro r hr k hk v hv
    rcases convert_ok_mem h r hr with ⟨s, hs, rs, hrs, hmem⟩
    rcases saleRecords_row_src hrs r hmem with ⟨item, hitem, pt, hpt, rd, hcr, hco⟩
    rw [hco, lookup_coerceNumerics] at hv
    rcases Option.map_eq_some'.mp hv with ⟨v0, hlk, hv2⟩
    rw [← hv2]
    unfold coerceCell
    rw [if_pos hk]
    exact toNumericCoerce_null_or_num v0
  · intro s2 hp
    simp [toNumericCoerce, hp]

/-- Witness for C2 (amended): a quantity of "N/A" really reaches the
output as null. -/
theorem C2_numeric_fields_coerce_witness :
    List.lookup "quantity" witNARow = some Value.null ∧
    (Value.null = Value.null ∨ ∃ q, Value.null = Value.num q) :=
  ⟨rfl,
    (C2_numeric_fields_coerce
        (show convert_sales_api_to_dataframe (.list [witNASale]) = .ok witNAOut from rfl)).1
      witNARow
      (by
        rw [show witNAOut = witNARow :: witNAOut.tail from rfl]
        exact List.mem_cons_self _ _)
      "quantity" (by decide) Value.null rfl⟩

/-- C3: in an accepted run, each FlatRecord of a sale carries as
payment_total the sum over the sale's payment map of the coerced payment
amounts (an absent amount key contributing 0, via the `.get` default in
`paymentAmounts`). -/
theorem C3_payment_total_sum {L : List Sale} {out : List Row}
    (h : convert_sales_api_to_dataframe (.list L) = .ok out) :
    ∀ s ∈ L, ∀ qs : List ℚ, paymentAmounts s = .ok qs →
      ∀ r ∈ blockOf s, List.lookup "payment_total" r = some (.num qs.sum) := by
  rcases convert_ok_decomp h with ⟨hne, hall, hout⟩
  intro s hs qs hqs r hr
  rcases hall s hs with ⟨rs, hrs⟩
  rw [blockOf_of_ok hrs] at hr
  rcases saleRecords_lookup hrs "payment_total" (by decide) r hr with
    ⟨item, hitem, pt, hpt, hlk⟩
  have hpt2 : pt = qs.sum := by
    unfold paymentTotalOf at hpt
    rw [hqs] at hpt
    simp only [Except.map, Except.ok.injEq] at hpt
    exact hpt.symm
  rw [hlk, lookup_mkRow_payment_total, hpt2]
  have hmem : "payment_total" ∈ numericColumns := by decide
  simp [coerceCell, hmem, toNumericCoerce]

/-- Witness for C3: the 7.00 cash payment shows up as payment_total. -/
theorem C3_payment_total_sum_witness :
    List.lookup "payment_total" witRow1 = some (.num witQs.sum) :=
  C3_payment_total_sum
      (show convert_sales_api_to_dataframe (.list [witSale1]) = .ok witOut from rfl)
      witSale1 (List.mem_singleton.mpr rfl) witQs rfl witRow1
      (by
        rw [show blockOf witSale1 = witRow1 :: (blockOf witSale1).tail from rfl]
        exact List.mem_cons_self _ _)

/-- C5: flattening a bare list and flattening the equivalent object with a
data key produce identical results on every input, success or failure. -/
theorem C5_list_dict_identical (L : List Sale) :
    convert_sales_api_to_dataframe (.list L) =
      convert_sales_api_to_dataframe (.dictWithData L) := rfl

/-- C6: an empty sales list raises the empty-input condition (so no output
records), under both accepted shapes, and an input that is neither a list
nor a dict exposing the data key raises the malformed-input condition. -/
theorem C6_empty_and_malformed :
    convert_sales_api_to_dataframe (.list []) =
        .error "ValueError: No sales data found" ∧
    convert_sales_api_to_dataframe (.dictWithData []) =
        .error "ValueError: No sales data found" ∧
    convert_sales_api_to_dataframe .malformed =
        .error "ValueError: Expected dict with data key or list of sales" :=
  ⟨rfl, rfl, rfl⟩

/-- C9: a sale with an absent sales_details key has no items, and a sale
with no items contributes zero rows and cannot make the flattener raise —
its payment data (which sits inside the per-item loop) is never evaluated,
whatever malformed amounts it contains. -/
theorem C9_empty_items_skip_payments (s : Sale) :
    (s.sales_details = none → itemsOf s = []) ∧
    (itemsOf s = [] → saleRows s = .ok [] ∧ saleRecords s = .ok []) := by
  constructor
  · intro h
    simp [itemsOf, h]
  · intro h
    have h1 : saleRows s = .ok [] := by
      unfold saleRows
      rw [h, exMapM_nil]
    refine ⟨h1, ?_⟩
    unfold saleRecords
    rw [h1]
    rfl

/-- Witness for C9 at a sale with no items and a non-numeric payment
amount: the flattener accepts it with zero rows. -/
theorem C9_empty_items_skip_payments_witness :
    itemsOf emptyItemsBadPaySale = [] ∧
    (saleRows emptyItemsBadPaySale = .ok [] ∧
      saleRecords emptyItemsBadPaySale = .ok []) :=
  ⟨(C9_empty_items_skip_payments emptyItemsBadPaySale).1 rfl,
    (C9_empty_items_skip_payments emptyItemsBadPaySale).2 rfl⟩

/-! ## The fetch loop characterisation -/

/-- Full characterisation of the paginated loop from any offset: it always
terminates, accumulates exactly the remaining records, issues one request
per full page plus one final request, and stops via the empty-page check
exactly when the remaining record count is an exact multiple of the page
size (otherwise via the short-page check). -/
theorem fetchGo_spec (limit : Nat) (hl : 0 < limit) (records : List Sale) :
    ∀ (k r offset reqs : Nat) (acc : List Sale),
      records.length - offset = limit * k + r → r < limit →
      fetchGo records limit offset acc reqs =
        (acc ++ records.drop offset, reqs + k + 1,
          if r = 0 then .emptyPage else .shortPage) := by
  intro k
  induction k with
  | zero =>
      intro r offset reqs acc hlen hr
      simp only [Nat.mul_zero, Nat.zero_add] at hlen
      have hpl : (pageAt records limit offset).length =
          min limit (records.length - offset) := by
        simp [pageAt]
      by_cases hr0 : r = 0
      · subst hr0
        have hz : (pageAt records limit offset).length = 0 := by omega
        have hbatch : (pageAt records limit offset).isEmpty = true := by
          rw [List.isEmpty_iff]
          exact List.length_eq_zero.mp hz
        unfold fetchGo
        rw [dif_pos hbatch]
        have hdrop : records.drop offset = [] := by
          apply List.length_eq_zero.mp
          rw [List.length_drop]
          omega
        rw [hdrop, if_pos rfl]
        simp
      · have hlen2 : (pageAt records limit offset).length = r := by omega
        have hne : ¬ (pageAt records limit offset).isEmpty = true := by
          intro hemp
          rw [List.isEmpty_iff] at hemp
          rw [hemp] at hlen2
          simp at hlen2
          omega
        have hlt : (pageAt records limit offset).length < limit := by omega
        unfold fetchGo
        rw [dif_neg hne, dif_pos hlt]
        have hpage : pageAt records limit offset = records.drop offset := by
          unfold pageAt
          apply List.take_of_length_le
          rw [List.length_drop]
          omega
        rw [hpage, if_neg hr0]
  | succ k ih =>
      intro r offset reqs acc hlen hr
      rw [Nat.mul_succ] at hlen
      have hpl : (pageAt records limit offset).length =
          min limit (records.length - offset) := by
        simp [pageAt]
      have hlenpage : (pageAt records limit offset).length = limit := by omega
      have hne : ¬ (pageAt records limit offset).isEmpty = true := by
        intro hemp
        rw [List.isEmpty_iff] at hemp
        rw [hemp] at hlenpage
        simp at hlenpage
        omega
      have hnlt : ¬ (pageAt records limit offset).length < limit := by omega
      unfold fetchGo
      rw [dif_neg hne, dif_neg hnlt]
      have hlen2 : records.length - (offset + limit) = limit * k + r := by omega
      rw [ih r (offset + limit) (reqs + 1) (acc ++ pageAt records limit offset)
        hlen2 hr]
      have hsplit : acc ++ pageAt records limit offset ++
          records.drop (offset + limit) = acc ++ records.drop offset := by
        rw [List.append_assoc]
        congr 1
        have hdd : records.drop (offset + limit) =
            (records.drop offset).drop limit := by
          rw [List.drop_drop, Nat.add_comm]
        rw [hdd]
        unfold pageAt
        exact List.take_append_drop limit (records.drop offset)
      simp only [Prod.mk.injEq]
      exact ⟨hsplit, by omega, trivial⟩

/-- C4: for every finite upstream dataset the fetch loop terminates with
all records; it issues exactly one request per full page plus one, ending
on the empty-page check when the record count is an exact multiple of the
page size and on the short-page check otherwise.  In particular, a dataset
of exactly 50·k records fetched with page size 50 ends after k+1 requests
via the empty-page check. -/
theorem C4_pagination_terminates :
    (∀ (records : List Sale) (limit : Nat), 0 < limit →
      fetch_all_sales_for_token records limit =
        (records, records.length / limit + 1,
          if limit ∣ records.length then .emptyPage else .shortPage)) ∧
    (∀ (records : List Sale) (k : Nat), records.length = 50 * k →
      fetch_all_sales_for_token records 50 = (records, k + 1, .emptyPage)) := by
  constructor
  · intro records limit hl
    have hspec := fetchGo_spec limit hl records (records.length / limit)
      (records.length % limit) 0 0 []
      (by rw [Nat.sub_zero]; exact (Nat.div_add_mod records.length limit).symm)
      (Nat.mod_lt _ hl)
    unfold fetch_all_sales_for_token
    rw [hspec]
    simp only [List.nil_append, List.drop_zero, Nat.zero_add, Prod.mk.injEq]
    refine ⟨trivial, trivial, ?_⟩
    by_cases hm : records.length % limit = 0
    · rw [if_pos hm, if_pos (Nat.dvd_of_mod_eq_zero hm)]
    · rw [if_neg hm, if_neg (fun hd => hm (Nat.mod_eq_zero_of_dvd hd))]
  · intro records k hk
    have hspec := fetchGo_spec 50 (by norm_num) records k 0 0 0 []
      (by rw [Nat.sub_zero, hk, Nat.add_zero]) (by norm_num)
    unfold fetch_all_sales_for_token
    rw [hspec]
    simp

/-- Witness for C4: 100 records at page size 50 terminate after 3 requests
via the empty-page check, returning all 100 records. -/
theorem C4_pagination_terminates_witness :
    fetch_all_sales_for_token (List.replicate 100 ({} : Sale)) 50 =
      (List.replicate 100 ({} : Sale), 3, .emptyPage) :=
  C4_pagination_terminates.2 (List.replicate 100 ({} : Sale)) 2 (by simp)

/-- C7: the orchestrator tail never overwrites an existing date-stamped
file: when the file exists, the store is unchanged, its contents survive
byte for byte, and the printed line is the skip notice; consequently a
second run after a successful first run for the same date leaves the file
holding the first run's contents. -/
theorem C7_write_once :
    (∀ (fs : FileStore) (filename content content0 : String),
      List.lookup filename fs = some content0 →
      (writeDailyFile fs filename content).1 = fs ∧
      (writeDailyFile fs filename content).2 =
        "File already exists, skipping: " ++ filename ∧
      List.lookup filename (writeDailyFile fs filename content).1 =
        some content0) ∧
    (∀ (fs : FileStore) (d c1 c2 : String),
      List.lookup (filenameFor d) fs = none →
      (writeDailyFile (writeDailyFile fs (filenameFor d) c1).1
          (filenameFor d) c2).1 = (writeDailyFile fs (filenameFor d) c1).1 ∧
      List.lookup (filenameFor d)
          (writeDailyFile (writeDailyFile fs (filenameFor d) c1).1
            (filenameFor d) c2).1 = some c1) := by
  constructor
  · intro fs filename content content0 h
    unfold writeDailyFile
    rw [h]
    exact ⟨rfl, rfl, h⟩
  · intro fs d c1 c2 h
    have h1 : writeDailyFile fs (filenameFor d) c1 =
        ((filenameFor d, c1) :: fs,
          "Saved daily sales to " ++ filenameFor d) := by
      unfold writeDailyFile
      rw [h]
    rw [h1]
    have h2 : List.lookup (filenameFor d) ((filenameFor d, c1) :: fs) =
        some c1 := by
      simp [List.lookup]
    unfold writeDailyFile
    rw [h2]
    exact ⟨rfl, h2⟩

/-- Witness for C7 at a concrete store holding the date's file. -/
theorem C7_write_once_witness :
    (writeDailyFile [("2026-10-11_sales.csv", "old")]
        "2026-10-11_sales.csv" "new").1 = [("2026-10-11_sales.csv", "old")] :=
  (C7_write_once.1 [("2026-10-11_sales.csv", "old")]
    "2026-10-11_sales.csv" "new" "old" rfl).1

/-- C8: every FlatRecord of an accepted run has the same fixed column set,
regardless of which optional nested keys its Sale carried; the row
assembly always fills that set, and with every optional key absent each
directly looked-up field takes its documented default — the empty string
for the two text fields outlet_name and register_name and null for the
remaining optional fields (the payment summary fields are computed, not
looked up: they come out as the empty joined string and the number 0). -/
theorem C8_fixed_fieldset_defaults :
    (∀ (L : List Sale) (out : List Row),
      convert_sales_api_to_dataframe (.list L) = .ok out →
      ∀ r ∈ out, r.map Prod.fst = flatRecordFields) ∧
    (∀ (s : Sale) (i : LineItem) (pm : List String) (pt : ℚ),
      (mkRow s i pm pt).map Prod.fst = flatRecordFields) ∧
    mkRow {} {} [] 0 =
      [ ("sale_id", .null), ("outlet_id", .null), ("outlet_name", .str ""),
        ("register_id", .null), ("register_name", .str ""), ("staff_id", .null),
        ("customer_id", .null), ("order_no", .null), ("sale_type", .null),
        ("order_status", .null), ("receipt_no", .null), ("sales_date_time", .null),
        ("item_id", .null), ("product_id", .null), ("product_name", .null),
        ("quantity", .null), ("price_inc_vat_per_item", .null), ("vat_rate", .null),
        ("vat_rate_id", .null), ("line_total_after_line_discount", .null),
        ("line_subtotal_after_line_discount", .null),
        ("line_vat_after_line_discount", .null),
        ("line_total_after_discount", .null), ("line_subtotal_after_discount", .null),
        ("line_vat_after_discount", .null), ("has_discount", .null),
        ("discount_amount", .null), ("discount_is_percentage", .null),
        ("discount_id", .null), ("sale_quantity_total", .null), ("sale_total", .null),
        ("sale_subtotal", .null), ("sale_vat_total", .null),
        ("sale_line_discount", .null), ("payment_methods", .str ""),
        ("payment_total", .num 0), ("item_notes", .null), ("sequence_no", .null),
        ("created_at", .null) ] := by
  refine ⟨?_, fun s i pm pt => keys_mkRow s i pm pt, rfl⟩
  intro L out h r hr
  rcases convert_ok_mem h r hr with ⟨s, hs, rs, hrs, hmem⟩
  rcases saleRecords_row_src hrs r hmem with ⟨item, hitem, pt, hpt, rd, hcr, hco⟩
  rw [hco, keys_coerceNumerics, convertRowDT_ok_keys hcr, keys_mkRow]

/-- Witness for C8: the concrete run keeps the fixed column set. -/
theorem C8_fixed_fieldset_defaults_witness :
    witRow1.map Prod.fst = flatRecordFields :=
  C8_fixed_fieldset_defaults.1 [witSale1] witOut rfl witRow1
    (by
      rw [show witOut = witRow1 :: witOut.tail from rfl]
      exact List.mem_cons_self _ _)

/-! ## Helper lemmas for the Area tagging -/

theorem lookup_append_right {k : String} :
    ∀ {r : Row}, List.lookup k r = none →
      ∀ r2 : Row, List.lookup k (r ++ r2) = List.lookup k r2 := by
  intro r
  induction r with
  | nil =>
      intro h r2
      simp
  | cons kv t ih =>
      intro h r2
      obtain ⟨k1, v1⟩ := kv
      by_cases hk : k = k1
      · subst hk
        simp [List.lookup] at h
      · have hbeq : (k == k1) = false := beq_false_of_ne hk
        simp only [List.lookup, List.cons_append, hbeq] at h ⊢
        exact ih h r2

theorem lookup_addArea (label : String) (r : Row) :
    List.lookup "Area" (addArea label r) = some (.str label) := by
  unfold addArea
  cases hlk : List.lookup "Area" r with
  | none =>
      rw [if_neg (by simp [hlk])]
      rw [lookup_append_right hlk]
      simp [List.lookup]
  | some v =>
      rw [if_pos (by simp [hlk])]
      have hfn : (fun kv : String × Value =>
            if kv.1 = "Area" then ("Area", Value.str label) else kv)
          = fun kv : String × Value =>
            (kv.1, if kv.1 = "Area" then Value.str label else kv.2) := by
        funext kv
        by_cases hk : kv.1 = "Area"
        · simp [hk]
        · simp [hk]
      rw [hfn,
        lookup_map_pair "Area" (fun k2 v2 => if k2 = "Area" then Value.str label else v2),
        hlk]
      simp

theorem combineTagged_area (food bar : List Row) (idx : Nat)
    (h : idx < (combineTagged food bar).length) :
    List.lookup "Area" ((combineTagged food bar).get ⟨idx, h⟩) =
      some (.str (if idx < food.length then "Food" else "Bar")) := by
  have hlen : (combineTagged food bar).length = food.length + bar.length := by
    simp [combineTagged]
  by_cases hidx : idx < food.length
  · rw [if_pos hidx]
    have hgl : (combineTagged food bar).get ⟨idx, h⟩ =
        addArea "Food" (food.get ⟨idx, hidx⟩) := by
      unfold combineTagged
      rw [List.get_eq_getElem, List.getElem_append_left (by simpa using hidx)]
      simp
    rw [hgl, lookup_addArea]
  · rw [if_neg hidx]
    have hge : (food.map (addArea "Food")).length ≤ idx := by
      simpa using Nat.le_of_not_lt hidx
    have hlt2 : idx - food.length < bar.length := by omega
    have hgl : (combineTagged food bar).get ⟨idx, h⟩ =
        addArea "Bar" (bar.get ⟨idx - food.length, hlt2⟩) := by
      unfold combineTagged
      rw [List.get_eq_getElem, List.getElem_append_right hge]
      simp
    rw [hgl, lookup_addArea]

/-- C10: the flattener preserves input order — the rows of a concatenated
sale list are the rows of the first part followed by the rows of the
second, and within one sale the rows follow the line-item order (row n
carries item n's id); and in the combined output every Food-tagged row
sits strictly before every Bar-tagged row. -/
theorem C10_order_preserved :
    (∀ (xs ys : List Sale) (out : List Row), buildRows (xs ++ ys) = .ok out →
      ∃ ox oy, buildRows xs = .ok ox ∧ buildRows ys = .ok oy ∧ out = ox ++ oy) ∧
    (∀ (s : Sale) (rows : List Row), saleRows s = .ok rows →
      rows.map (List.lookup "item_id") =
        (itemsOf s).map (fun i => some (pyGet i.id))) ∧
    (∀ (food bar : List Row) (i j : Nat)
      (hi : i < (combineTagged food bar).length)
      (hj : j < (combineTagged food bar).length),
      List.lookup "Area" ((combineTagged food bar).get ⟨i, hi⟩) =
        some (.str "Food") →
      List.lookup "Area" ((combineTagged food bar).get ⟨j, hj⟩) =
        some (.str "Bar") →
      i < j) := by
  refine ⟨?_, ?_, ?_⟩
  · intro xs ys out h
    unfold buildRows at h ⊢
    cases hm : exMapM saleRows (xs ++ ys) with
    | error e => rw [hm] at h; exact absurd h (by simp [Except.map])
    | ok blocks =>
        rw [hm] at h
        simp only [Except.map, Except.ok.injEq] at h
        subst h
        rcases exMapM_append hm with ⟨b1, b2, hb1, hb2, hsplit⟩
        subst hsplit
        exact ⟨b1.flatten, b2.flatten, by rw [hb1]; rfl, by rw [hb2]; rfl, by simp⟩
  · intro s rows h
    refine exMapM_map_eq (List.lookup "item_id") (fun i => some (pyGet i.id)) ?_ h
    intro item r hf
    cases hpt : paymentTotalOf s with
    | error e => rw [hpt] at hf; exact absurd hf (by simp [Except.map])
    | ok pt =>
        rw [hpt] at hf
        simp only [Except.map, Except.ok.injEq] at hf
        rw [← hf]
        exact lookup_mkRow_item_id s item (paymentMethodsOf s) pt
  · intro food bar i j hi hj hFood hBar
    have hi2 := combineTagged_area food bar i hi
    have hj2 := combineTagged_area food bar j hj
    rw [hFood] at hi2
    rw [hBar] at hj2
    by_cases hif : i < food.length
    · by_cases hjf : j < food.length
      · rw [if_pos hjf] at hj2
        simp at hj2
      · omega
    · rw [if_neg hif] at hi2
      simp at hi2

/-- Witness for C10: the rows of the concrete two-item sale list the item
ids in item order. -/
theorem C10_order_preserved_witness :
    witRawRows.map (List.lookup "item_id") =
      (itemsOf witSale1).map (fun i => some (pyGet i.id)) :=
  C10_order_preserved.2.1 witSale1 witRawRows rfl

end GoodtillDailyExport
